import Mathlib

/-
Verification of the simple-currency-exchange-service repository.

The development shallowly embeds the parts of the code that the claims
touch:

* Python `decimal.Decimal` values are modelled exactly as the library
  represents them: an integer coefficient `m` and an integer exponent `e`,
  the value being `m * 10 ^ e`.  Arithmetic follows the default decimal
  context of CPython (precision 28 significant digits, rounding
  ROUND_HALF_EVEN): each operation produces the exact result rounded
  half-even at the exponent `floor(log10 |value|) - 27`.
* `ExchangeRate` rows (`exchange_app/models.py`) become `RateRecord`
  values; the Django ORM query
  `filter(base_currency=.., counter_currency=..).order_by('-fetched_at').first()`
  becomes `findLatest`.
* The Redis cache becomes an association list keyed by the same
  `"fx_rate:{base}:{counter}"` strings the code builds.
* `ExchangeRateManager.get_latest_rate` is embedded as `get_latest_rate`,
  including its exception handling: the `except Exception` arm of the
  source calls `logger.error`, but `exchange_app/models.py` never defines
  or imports `logger`, so that arm actually raises `NameError` - this is
  modelled faithfully.
* `ConversionAPIView.post` (`exchange_app/views.py`) after request
  validation becomes `conversion_post`.
* The ingestion loop of `fetch_and_save_latest_rates`
  (`exchange_app/tasks.py`) becomes `fetch_and_save_latest_rates`.
-/

/-- A Python `decimal.Decimal` value: coefficient `m` times `10 ^ e`.
This is precisely the representation CPython uses (sign folded into `m`). -/
structure Decimal where
  m : ℤ
  e : ℤ
deriving DecidableEq, Repr

/-- Number of base-10 digits of `n` (with `ndigitsAux fuel n`; the fuel is
always at least `n`, which bounds the recursion depth by the digit count). -/
def ndigitsAux : ℕ → ℕ → ℕ
  | 0, _ => 1
  | fuel+1, n => if n < 10 then 1 else ndigitsAux fuel (n / 10) + 1

/-- Number of base-10 digits of `n` (`ndigits 0 = 1`). -/
def ndigits (n : ℕ) : ℕ := ndigitsAux n n

/-- Integer floor of `log10 n` for `n ≥ 1`. -/
def ilog10 (n : ℕ) : ℤ := (ndigits n : ℤ) - 1

/-- Round the fraction `num / den` (with `den > 0`) to the nearest integer,
ties to even - the `ROUND_HALF_EVEN` rounding of the default Python
decimal context. -/
def rndHE (num den : ℤ) : ℤ :=
  let q := Int.fdiv num den
  let r := num - q * den
  if 2 * r < den then q
  else if den < 2 * r then q + 1
  else if q % 2 = 0 then q else q + 1

/-- Round the fraction `num / den` (with `den > 0`) to the nearest integer,
ties away from zero - Python `ROUND_HALF_UP`. -/
def rndHU (num den : ℤ) : ℤ :=
  if 0 ≤ num then Int.fdiv (2 * num + den) (2 * den)
  else -Int.fdiv (2 * (-num) + den) (2 * den)

/-- Floor of `log10 (a / b)` for naturals `a, b ≥ 1`. -/
def floorLog10Q (a b : ℕ) : ℤ :=
  let e0 := ilog10 a - ilog10 b
  if 0 ≤ e0 then (if b * 10 ^ e0.toNat ≤ a then e0 else e0 - 1)
  else (if b ≤ a * 10 ^ (-e0).toNat then e0 else e0 - 1)

/-- Mantissa of the value of `a` rounded half-even at exponent `t`:
`rndHE (value a / 10 ^ t)`. -/
def roundDecAtHE (a : Decimal) (t : ℤ) : ℤ :=
  let s := a.e - t
  if 0 ≤ s then a.m * 10 ^ s.toNat else rndHE a.m (10 ^ (-s).toNat)

/-- Mantissa of the value of `a` rounded half-up (ties away from zero) at
exponent `t`. -/
def roundDecAtHU (a : Decimal) (t : ℤ) : ℤ :=
  let s := a.e - t
  if 0 ≤ s then a.m * 10 ^ s.toNat else rndHU a.m (10 ^ (-s).toNat)

/-- The exact value `m * 10 ^ e` rounded to `prec` significant digits with
half-even rounding, as the decimal context does after every operation.
When the exact result already fits (the rounding position lies at or below
the exponent) it is kept unchanged. -/
def roundPrecHE (prec : ℕ) (m e : ℤ) : Decimal :=
  if m = 0 then ⟨0, e⟩
  else
    let t := ilog10 m.natAbs + e - ((prec : ℤ) - 1)
    if t ≤ e then ⟨m, e⟩ else ⟨rndHE m (10 ^ (t - e).toNat), t⟩

/-- Decimal multiplication at context precision `prec` (exact product, then
rounded to `prec` significant digits, half-even). -/
def mulPrec (prec : ℕ) (a b : Decimal) : Decimal :=
  roundPrecHE prec (a.m * b.m) (a.e + b.e)

/-- Decimal subtraction at context precision `prec`. -/
def subPrec (prec : ℕ) (a b : Decimal) : Decimal :=
  let e := min a.e b.e
  roundPrecHE prec (a.m * 10 ^ (a.e - e).toNat - b.m * 10 ^ (b.e - e).toNat) e

/-- Round the fraction `num / den` (`den > 0`) half-even at exponent `t`. -/
def roundHEAt (num den t : ℤ) : ℤ :=
  if 0 ≤ t then rndHE num (den * 10 ^ t.toNat) else rndHE (num * 10 ^ (-t).toNat) den

/-- Decimal division at context precision `prec`: the exact quotient rounded
half-even to `prec` significant digits.  (A zero divisor raises
`DivisionByZero` in Python; callers of `divPrec` model that case
explicitly before dividing, so the `den = 0` branch here is never used.) -/
def divPrec (prec : ℕ) (a b : Decimal) : Decimal :=
  let d := a.e - b.e
  let num0 : ℤ := if 0 ≤ d then a.m * 10 ^ d.toNat else a.m
  let den0 : ℤ := if 0 ≤ d then b.m else b.m * 10 ^ (-d).toNat
  let num : ℤ := if den0 < 0 then -num0 else num0
  let den : ℤ := if den0 < 0 then -den0 else den0
  if num = 0 then ⟨0, 0⟩
  else if den = 0 then ⟨0, 0⟩
  else
    let t := floorLog10Q num.natAbs den.toNat - ((prec : ℤ) - 1)
    ⟨roundHEAt num den t, t⟩

/-- Python `x.quantize(Decimal('0.0001'))` and friends: round the value of
`a` to exactly `k` fractional digits with the context rounding
ROUND_HALF_EVEN (the source never passes an explicit rounding mode). -/
def quantHE (k : ℕ) (a : Decimal) : Decimal :=
  ⟨roundDecAtHE a (-(k : ℤ)), -(k : ℤ)⟩

/-- Quantization to `k` fractional digits with ROUND_HALF_UP, the rounding
the specification text asks for.  Used to compare the specified arithmetic
with the implemented arithmetic. -/
def quantHU (k : ℕ) (a : Decimal) : Decimal :=
  ⟨roundDecAtHU a (-(k : ℤ)), -(k : ℤ)⟩

/-- A row of the `ExchangeRate` table (`exchange_app/models.py`).  The
`provider_name` and surrogate id fields play no role in any claim and are
omitted; `fetched_at` timestamps are abstracted to naturals. -/
structure RateRecord where
  base_currency : String
  counter_currency : String
  rate_value : Decimal
  fetched_at : ℕ
deriving DecidableEq, Repr

/-- The Redis cache: an association list from string keys to decimal
values. -/
abbrev Cache : Type := List (String × Decimal)

/-- The cache key built by `get_latest_rate`:
`f"fx_rate:\x7bbase_currency\x7d:\x7bcounter_currency\x7d"`. -/
def cache_key (base_currency counter_currency : String) : String :=
  "fx_rate:" ++ base_currency ++ ":" ++ counter_currency

/-- `cache.get(key)`. -/
def cacheGet (cache : Cache) (k : String) : Option Decimal :=
  (List.find? (fun p => p.1 == k) cache).map (fun p => p.2)

/-- `cache.set(key, value, timeout=...)`: overwrite semantics. -/
def cacheSet (cache : Cache) (k : String) (v : Decimal) : Cache :=
  (k, v) :: List.filter (fun p => p.1 != k) cache

/-- The record with the greatest `fetched_at` in a list (the head of the
list ordered by `-fetched_at`), i.e. `order_by('-fetched_at').first()`
applied to an already filtered queryset. -/
def latestIn : List RateRecord → Option RateRecord
  | [] => none
  | r :: rs =>
    match latestIn rs with
    | none => some r
    | some r2 => if r.fetched_at < r2.fetched_at then some r2 else some r

/-- `self.filter(base_currency=b, counter_currency=c).order_by('-fetched_at').first()`. -/
def findLatest (store : List RateRecord) (b c : String) : Option RateRecord :=
  latestIn (store.filter (fun r => r.base_currency == b && r.counter_currency == c))

/-- Exceptions that can escape the `try` block of `get_latest_rate`:
either the model's `DoesNotExist` (raised with a message by the code
itself) or any other exception (a storage fault, `DivisionByZero`, ...). -/
inductive RawErr where
  | doesNotExist (msg : String)
  | otherExc
deriving DecidableEq, Repr

/-- Errors observable by callers of `get_latest_rate`.  `DoesNotExist` is
`ExchangeRate.DoesNotExist`; `NameErr` models the `NameError` that the
`except Exception` arm raises because `exchange_app/models.py` never
defines `logger` (actual CPython message: `name 'logger' is not defined`,
apostrophes elided here). -/
inductive PyError where
  | DoesNotExist (msg : String)
  | NameErr (msg : String)
deriving DecidableEq, Repr

/-- The `try` block of `ExchangeRateManager.get_latest_rate`
(models.py lines 28-63).  `storeFail` models the persistence layer
raising an unexpected (non-`DoesNotExist`) exception on access, which in
the source would surface at the first ORM query.  A zero stored
`EUR → base` rate makes `Decimal('1.0') / base_to_eur_rate` raise
`DivisionByZero`, another non-`DoesNotExist` exception. -/
def get_latest_rate_try (storeFail : Bool) (store : List RateRecord) (cache : Cache)
    (base_currency counter_currency : String) : Except RawErr Decimal × Cache :=
  if storeFail then (Except.error RawErr.otherExc, cache)
  else
    let direct : Option RateRecord :=
      if base_currency == "EUR" then findLatest store base_currency counter_currency else none
    match direct with
    | some latest_rate =>
      (Except.ok latest_rate.rate_value,
       cacheSet cache (cache_key base_currency counter_currency) latest_rate.rate_value)
    | none =>
      match findLatest store "EUR" base_currency with
      | none =>
        (Except.error (RawErr.doesNotExist ("No rate found for EUR/" ++ base_currency)), cache)
      | some base_to_eur =>
        match findLatest store "EUR" counter_currency with
        | none =>
          (Except.error (RawErr.doesNotExist ("No rate found for EUR/" ++ counter_currency)), cache)
        | some eur_to_target =>
          if base_to_eur.rate_value.m = 0 then (Except.error RawErr.otherExc, cache)
          else
            let rate_value :=
              quantHE 4 (mulPrec 28 (divPrec 28 ⟨10, -1⟩ base_to_eur.rate_value)
                eur_to_target.rate_value)
            (Except.ok rate_value,
             cacheSet cache (cache_key base_currency counter_currency) rate_value)

/-- The exception handlers of `get_latest_rate` (models.py lines 65-69):
`except DoesNotExist: raise` re-raises unchanged, while
`except Exception as e:` first evaluates `logger.error(...)` - but
`logger` is undefined in models.py, so a `NameError` propagates and the
`raise self.model.DoesNotExist(...)` on line 69 is never reached. -/
def handleLookupExc : Except RawErr Decimal × Cache → Except PyError Decimal × Cache
  | (Except.ok v, ca) => (Except.ok v, ca)
  | (Except.error (RawErr.doesNotExist msg), ca) => (Except.error (PyError.DoesNotExist msg), ca)
  | (Except.error RawErr.otherExc, ca) =>
    (Except.error (PyError.NameErr "NameError: name logger is not defined"), ca)

/-- `ExchangeRateManager.get_latest_rate` (models.py lines 15-69).  The
cache probe `if rate_data:` is Python truthiness: an entry holding decimal
zero is treated like a miss. -/
def get_latest_rate (storeFail : Bool) (store : List RateRecord) (cache : Cache)
    (base_currency counter_currency : String) : Except PyError Decimal × Cache :=
  match cacheGet cache (cache_key base_currency counter_currency) with
  | some rate_data =>
    if rate_data.m = 0 then
      handleLookupExc (get_latest_rate_try storeFail store cache base_currency counter_currency)
    else (Except.ok rate_data, cache)
  | none =>
    handleLookupExc (get_latest_rate_try storeFail store cache base_currency counter_currency)

/-- A `ConversionAudit` row (`exchange_app/models.py`), holding the fields
the conversion view writes. -/
structure ConversionAudit where
  rate_used : RateRecord
  input_amount : Decimal
  output_amount : Decimal
  margin_applied : Decimal
deriving DecidableEq, Repr

/-- `ConversionAPIView.post` (views.py lines 89-134) after request
validation, with working storage: resolve the rate through
`get_latest_rate`, apply the margin
(`spread_factor = Decimal("1.0") - margin`,
`adjusted_rate = (rate_value * spread_factor).quantize(Decimal("0.0001"))`,
`output_amount = (input_amount * adjusted_rate).quantize(Decimal("0.01"))`),
then inside `transaction.atomic()` re-query the latest `EUR → base` and
`EUR → target` records (raising `DoesNotExist` if either is absent) and
create the single audit row with `rate_used = eur_to_target`.  On success
the caller receives the audit row and the effective (adjusted) rate. -/
def conversion_post (store : List RateRecord) (cache : Cache)
    (margin input_amount : Decimal) (base_currency target_currency : String) :
    Except PyError (ConversionAudit × Decimal) × Cache :=
  match get_latest_rate false store cache base_currency target_currency with
  | (Except.error e, ca) => (Except.error e, ca)
  | (Except.ok rate_value, ca) =>
    let spread_factor := subPrec 28 ⟨10, -1⟩ margin
    let adjusted_rate := quantHE 4 (mulPrec 28 rate_value spread_factor)
    let output_amount := quantHE 2 (mulPrec 28 input_amount adjusted_rate)
    match findLatest store "EUR" base_currency with
    | none =>
      (Except.error (PyError.DoesNotExist ("No rate found for EUR/" ++ base_currency)), ca)
    | some _ =>
      match findLatest store "EUR" target_currency with
      | none =>
        (Except.error (PyError.DoesNotExist ("No rate found for EUR/" ++ target_currency)), ca)
      | some eur_to_target =>
        (Except.ok
          ({ rate_used := eur_to_target, input_amount := input_amount,
             output_amount := output_amount, margin_applied := margin }, adjusted_rate), ca)

/-- The ingestion loop of `fetch_and_save_latest_rates`
(tasks.py lines 35-56): every fetched `(counter_currency, rate_value)`
pair with `rate_value <= Decimal('0')` is skipped (logged, not an error),
the rest become `ExchangeRate` rows sharing one timestamp, written by a
single `bulk_create` inside one `transaction.atomic()` block.  The
client's base currency is the constant `'EUR'` (api_client.py line 23). -/
def fetch_and_save_latest_rates (rates : List (String × Decimal)) (timestamp : ℕ) :
    List RateRecord :=
  rates.foldl
    (fun acc p =>
      if p.2.m ≤ 0 then acc
      else acc ++ [{ base_currency := "EUR", counter_currency := p.1,
                     rate_value := p.2, fetched_at := timestamp }])
    []

instance {ε α : Type} [DecidableEq ε] [DecidableEq α] : DecidableEq (Except ε α)
  | Except.ok a, Except.ok b =>
    if h : a = b then isTrue (congrArg Except.ok h)
    else isFalse (fun hc => h (Except.ok.inj hc))
  | Except.ok _, Except.error _ => isFalse (fun hc => Except.noConfusion hc)
  | Except.error _, Except.ok _ => isFalse (fun hc => Except.noConfusion hc)
  | Except.error e1, Except.error e2 =>
    if h : e1 = e2 then isTrue (congrArg Except.error h)
    else isFalse (fun hc => h (Except.error.inj hc))

/-- A record returned by `latestIn` is an element of the list. -/
theorem latestIn_mem : ∀ (l : List RateRecord) (r : RateRecord), latestIn l = some r → r ∈ l := by
  intro l
  induction l with
  | nil => intro r h; simp [latestIn] at h
  | cons a as ih =>
    intro r h
    simp only [latestIn] at h
    split at h
    · cases h; exact List.mem_cons_self _ _
    · rename_i r2 has
      split at h
      · cases h; exact List.mem_cons_of_mem _ (ih _ has)
      · cases h; exact List.mem_cons_self _ _

/-- `latestIn` returns `none` only on the empty list. -/
theorem latestIn_eq_none : ∀ (l : List RateRecord), latestIn l = none → l = [] := by
  intro l h
  cases l with
  | nil => rfl
  | cons a as =>
    simp only [latestIn] at h
    split at h
    · cases h
    · split at h <;> cases h

/-- A record returned by `latestIn` has the greatest `fetched_at` of the list. -/
theorem latestIn_max : ∀ (l : List RateRecord) (r : RateRecord), latestIn l = some r →
    ∀ x ∈ l, x.fetched_at ≤ r.fetched_at := by
  intro l
  induction l with
  | nil => intro r h; simp [latestIn] at h
  | cons a as ih =>
    intro r h x hx
    simp only [latestIn] at h
    split at h
    · rename_i has
      cases h
      have hase := latestIn_eq_none _ has
      subst hase
      rcases List.mem_cons.1 hx with hxa | hxs
      · cases hxa; exact le_refl _
      · simp at hxs
    · rename_i r2 has
      split at h
      · rename_i hlt
        cases h
        rcases List.mem_cons.1 hx with hxa | hxs
        · cases hxa; exact le_of_lt hlt
        · exact ih _ has x hxs
      · rename_i hlt
        cases h
        rcases List.mem_cons.1 hx with hxa | hxs
        · cases hxa; exact le_refl _
        · exact le_trans (ih _ has x hxs) (le_of_not_lt hlt)

/-- If `r` matches the pair and strictly dominates every other matching
record in `fetched_at` (which the `unique_together` constraint on
`(base_currency, counter_currency, fetched_at)` guarantees for the
newest record), then the ORM query returns `r`. -/
theorem findLatest_of_strict_max (store : List RateRecord) (b c : String) (r : RateRecord)
    (hr : r ∈ store) (hb : r.base_currency = b) (hc2 : r.counter_currency = c)
    (hmax : ∀ x ∈ store, x.base_currency = b → x.counter_currency = c → x ≠ r →
      x.fetched_at < r.fetched_at) :
    findLatest store b c = some r := by
  unfold findLatest
  have hrl : r ∈ store.filter (fun x => x.base_currency == b && x.counter_currency == c) := by
    apply List.mem_filter.2
    refine ⟨hr, ?_⟩
    simp [hb, hc2]
  cases hl : latestIn (store.filter (fun x => x.base_currency == b && x.counter_currency == c)) with
  | none =>
    have := latestIn_eq_none _ hl
    rw [this] at hrl
    simp at hrl
  | some r0 =>
    have h0 := latestIn_mem _ _ hl
    have h0f := List.mem_filter.1 h0
    have h0b : r0.base_currency = b ∧ r0.counter_currency = c := by
      have := h0f.2
      simp at this
      exact this
    by_cases heq : r0 = r
    · rw [heq]
    · have hlt := hmax r0 h0f.1 h0b.1 h0b.2 heq
      have hle := latestIn_max _ _ hl r hrl
      omega

/-- C1 (counterexample): the claim says the cross rate is rounded to 4
fractional digits with round-half-up, but `quantize` in the source uses the
context default ROUND_HALF_EVEN.  With the latest `EUR→USD` rate `2` and
the latest `EUR→JPY` rate `1.0001`, the exact cross rate is
`(1/2) * 1.0001 = 0.50005`: the code returns `0.5000` while the claimed
half-up rounding yields `0.5001`. -/
theorem c1_halfup_counterexample :
    (get_latest_rate false
        [⟨"EUR", "USD", ⟨2, 0⟩, 0⟩, ⟨"EUR", "JPY", ⟨10001, -4⟩, 0⟩] [] "USD" "JPY").1
      = Except.ok ⟨5000, -4⟩ ∧
    quantHU 4 (mulPrec 28 (divPrec 28 ⟨10, -1⟩ ⟨2, 0⟩) ⟨10001, -4⟩) = ⟨5001, -4⟩ ∧
    (⟨5000, -4⟩ : Decimal) ≠ ⟨5001, -4⟩ := by
  refine ⟨by decide, by decide, by decide⟩

/-- C1 (amended): for a pair whose base is not `"EUR"`, with no cache entry
and both pivot legs stored (and a nonzero latest `EUR→base` rate, without
which the division raises), `get_latest_rate` returns
`(1 / EUR→base) * (EUR→target)` computed in 28-significant-digit decimal
arithmetic and quantized to 4 fractional digits with ROUND_HALF_EVEN. -/
theorem c1_pivot_cross_rate (store : List RateRecord) (cache : Cache) (b t : String)
    (rb rt : RateRecord)
    (hc : cacheGet cache (cache_key b t) = none) (hb : b ≠ "EUR")
    (h1 : findLatest store "EUR" b = some rb)
    (h2 : findLatest store "EUR" t = some rt)
    (hnz : rb.rate_value.m ≠ 0) :
    (get_latest_rate false store cache b t).1 =
      Except.ok (quantHE 4 (mulPrec 28 (divPrec 28 ⟨10, -1⟩ rb.rate_value) rt.rate_value)) := by
  have hb2 : (b == "EUR") = false := by simp [hb]
  simp only [get_latest_rate, hc, get_latest_rate_try, handleLookupExc]
  simp [hb2, h1, h2, hnz]

/-- C1 (witness): the amended theorem applied to a concrete store. -/
theorem c1_pivot_cross_rate_witness :
    (get_latest_rate false
        [⟨"EUR", "USD", ⟨2, 0⟩, 0⟩, ⟨"EUR", "JPY", ⟨10001, -4⟩, 0⟩] [] "USD" "JPY").1
      = Except.ok (quantHE 4 (mulPrec 28 (divPrec 28 ⟨10, -1⟩ (⟨2, 0⟩ : Decimal)) ⟨10001, -4⟩)) :=
  c1_pivot_cross_rate
    [⟨"EUR", "USD", ⟨2, 0⟩, 0⟩, ⟨"EUR", "JPY", ⟨10001, -4⟩, 0⟩] [] "USD" "JPY"
    ⟨"EUR", "USD", ⟨2, 0⟩, 0⟩ ⟨"EUR", "JPY", ⟨10001, -4⟩, 0⟩
    (by decide) (by decide) (by decide) (by decide) (by decide)

/-- C3: for a non-EUR base with no cache entry, a missing pivot leg makes
`get_latest_rate` fail with `DoesNotExist` whose message names the missing
leg's currency: `"No rate found for EUR/{base}"` when `EUR→base` is absent,
`"No rate found for EUR/{target}"` when `EUR→base` exists but `EUR→target`
is absent. -/
theorem c3_missing_leg_is_named (store : List RateRecord) (cache : Cache) (b t : String)
    (hc : cacheGet cache (cache_key b t) = none) (hb : b ≠ "EUR") :
    (findLatest store "EUR" b = none →
      (get_latest_rate false store cache b t).1 =
        Except.error (PyError.DoesNotExist ("No rate found for EUR/" ++ b))) ∧
    (∀ rb, findLatest store "EUR" b = some rb → findLatest store "EUR" t = none →
      (get_latest_rate false store cache b t).1 =
        Except.error (PyError.DoesNotExist ("No rate found for EUR/" ++ t))) := by
  have hb2 : (b == "EUR") = false := by simp [hb]
  constructor
  · intro h1
    simp only [get_latest_rate, hc, get_latest_rate_try, handleLookupExc]
    simp [hb2, h1]
  · intro rb h1 h2
    simp only [get_latest_rate, hc, get_latest_rate_try, handleLookupExc]
    simp [hb2, h1, h2]

/-- C3 (witness): with `EUR→USD` stored and `EUR→JPY` absent,
`get_latest_rate("USD", "JPY")` fails naming JPY specifically. -/
theorem c3_missing_leg_is_named_witness :
    (get_latest_rate false [⟨"EUR", "USD", ⟨2, 0⟩, 0⟩] [] "USD" "JPY").1 =
      Except.error (PyError.DoesNotExist "No rate found for EUR/JPY") :=
  (c3_missing_leg_is_named [⟨"EUR", "USD", ⟨2, 0⟩, 0⟩] [] "USD" "JPY"
      (by decide) (by decide)).2
    ⟨"EUR", "USD", ⟨2, 0⟩, 0⟩ (by decide) (by decide)

/-- C4: with no cache entry for the pair, `get_latest_rate("EUR", X)` with
at least one stored `EUR→X` record returns exactly the stored `rate_value`
of the `EUR→X` record with the greatest `fetched_at`, with no arithmetic
applied.  (Strict dominance of the newest record is what the
`unique_together` constraint on `(base, counter, fetched_at)` provides.) -/
theorem c4_direct_returns_stored_rate (store : List RateRecord) (cache : Cache)
    (t : String) (r : RateRecord)
    (hc : cacheGet cache (cache_key "EUR" t) = none)
    (hr : r ∈ store) (hb : r.base_currency = "EUR") (hct : r.counter_currency = t)
    (hmax : ∀ x ∈ store, x.base_currency = "EUR" → x.counter_currency = t → x ≠ r →
      x.fetched_at < r.fetched_at) :
    (get_latest_rate false store cache "EUR" t).1 = Except.ok r.rate_value := by
  have hf : findLatest store "EUR" t = some r :=
    findLatest_of_strict_max store "EUR" t r hr hb hct hmax
  simp only [get_latest_rate, hc, get_latest_rate_try, handleLookupExc]
  simp [hf]

/-- C4 (witness): two stored `EUR→USD` records; the one with the greater
`fetched_at` wins. -/
theorem c4_direct_returns_stored_rate_witness :
    (get_latest_rate false
        [⟨"EUR", "USD", ⟨5, 0⟩, 3⟩, ⟨"EUR", "USD", ⟨7, 0⟩, 1⟩] [] "EUR" "USD").1 =
      Except.ok (⟨5, 0⟩ : Decimal) :=
  c4_direct_returns_stored_rate
    [⟨"EUR", "USD", ⟨5, 0⟩, 3⟩, ⟨"EUR", "USD", ⟨7, 0⟩, 1⟩] [] "USD"
    ⟨"EUR", "USD", ⟨5, 0⟩, 3⟩ (by decide) (by decide) (by decide) (by decide) (by decide)

/-- C10: a lookup with base `"EUR"`, no cache entry and no stored
`EUR→target` record falls through into the pivot branch, which first
queries `EUR→EUR`; when no `EUR→EUR` record exists either, the call fails
with the message naming the pair EUR/EUR, not the requested target. -/
theorem c10_eur_fallthrough_names_eur_eur (store : List RateRecord) (cache : Cache) (t : String)
    (hc : cacheGet cache (cache_key "EUR" t) = none)
    (h1 : findLatest store "EUR" t = none)
    (h2 : findLatest store "EUR" "EUR" = none) :
    (get_latest_rate false store cache "EUR" t).1 =
      Except.error (PyError.DoesNotExist "No rate found for EUR/EUR") := by
  simp only [get_latest_rate, hc, get_latest_rate_try, handleLookupExc]
  simp [h1, h2]

/-- C10 (witness): empty store, lookup `EUR→USD`: the error names EUR/EUR. -/
theorem c10_eur_fallthrough_names_eur_eur_witness :
    (get_latest_rate false [] [] "EUR" "USD").1 =
      Except.error (PyError.DoesNotExist "No rate found for EUR/EUR") :=
  c10_eur_fallthrough_names_eur_eur [] [] "USD" (by decide) (by decide) (by decide)

/-- C2: a caller receives a success response only together with the one
audit row the transaction created, and that row's `rate_used` is the
latest `EUR→target` record (the terminal leg of the computation), for
direct (`base == "EUR"`) and pivot resolutions alike; the success value
also carries the requested amount and the applied margin. -/
theorem c2_success_audits_latest_target_leg (store : List RateRecord) (cache : Cache)
    (margin amount : Decimal) (b t : String) (audit : ConversionAudit) (eff : Decimal)
    (ca : Cache)
    (h : conversion_post store cache margin amount b t = (Except.ok (audit, eff), ca)) :
    findLatest store "EUR" t = some audit.rate_used ∧ audit.input_amount = amount ∧
      audit.margin_applied = margin := by
  unfold conversion_post at h
  split at h
  · exact absurd h (by simp)
  · split at h
    · exact absurd h (by simp)
    · split at h
      · exact absurd h (by simp)
      · rename_i het
        simp only [Prod.mk.injEq, Except.ok.injEq] at h
        obtain ⟨⟨ha, he⟩, hca⟩ := h
        subst ha
        exact ⟨het, rfl, rfl⟩

/-- C2 (witness): a concrete successful pivot conversion; the audit row
references the latest `EUR→NGN` record. -/
theorem c2_success_audits_latest_target_leg_witness :
    findLatest [⟨"EUR", "USD", ⟨2, 0⟩, 0⟩, ⟨"EUR", "NGN", ⟨4, 0⟩, 0⟩] "EUR" "NGN" =
      some (⟨⟨"EUR", "NGN", ⟨4, 0⟩, 0⟩, ⟨100, -2⟩, ⟨199, -2⟩, ⟨5, -3⟩⟩ :
        ConversionAudit).rate_used ∧
    (⟨⟨"EUR", "NGN", ⟨4, 0⟩, 0⟩, ⟨100, -2⟩, ⟨199, -2⟩, ⟨5, -3⟩⟩ :
        ConversionAudit).input_amount = ⟨100, -2⟩ ∧
    (⟨⟨"EUR", "NGN", ⟨4, 0⟩, 0⟩, ⟨100, -2⟩, ⟨199, -2⟩, ⟨5, -3⟩⟩ :
        ConversionAudit).margin_applied = ⟨5, -3⟩ :=
  c2_success_audits_latest_target_leg
    [⟨"EUR", "USD", ⟨2, 0⟩, 0⟩, ⟨"EUR", "NGN", ⟨4, 0⟩, 0⟩] [] ⟨5, -3⟩ ⟨100, -2⟩ "USD" "NGN"
    ⟨⟨"EUR", "NGN", ⟨4, 0⟩, 0⟩, ⟨100, -2⟩, ⟨199, -2⟩, ⟨5, -3⟩⟩ ⟨19900, -4⟩
    [("fx_rate:USD:NGN", ⟨20000, -4⟩)] (by decide)

/-- C5 (counterexample): the claim says both conversion roundings are
round-half-up, but the source quantizes with the context default
ROUND_HALF_EVEN.  With resolved rate `2.1357`, margin `0.005` and amount
`1.00`: `adjusted_rate = 2.1250` either way, but
`output_amount = 1.00 * 2.1250` is a tie at the cent and the code returns
`2.12` while the claimed half-up rounding yields `2.13`. -/
theorem c5_halfup_counterexample :
    (conversion_post [⟨"EUR", "USD", ⟨1, 0⟩, 0⟩, ⟨"EUR", "NGN", ⟨1, 0⟩, 0⟩]
        [("fx_rate:USD:NGN", ⟨21357, -4⟩)] ⟨5, -3⟩ ⟨100, -2⟩ "USD" "NGN").1 =
      Except.ok (⟨⟨"EUR", "NGN", ⟨1, 0⟩, 0⟩, ⟨100, -2⟩, ⟨212, -2⟩, ⟨5, -3⟩⟩, ⟨21250, -4⟩) ∧
    quantHU 2 (mulPrec 28 ⟨100, -2⟩
        (quantHU 4 (mulPrec 28 ⟨21357, -4⟩ (subPrec 28 ⟨10, -1⟩ ⟨5, -3⟩)))) = ⟨213, -2⟩ ∧
    (⟨212, -2⟩ : Decimal) ≠ ⟨213, -2⟩ := by
  refine ⟨by decide, by decide, by decide⟩

/-- C5 (amended): when the rate resolves to `r` and the conversion
succeeds, the code computes `adjusted_rate = r * (1 - margin)` quantized
to 4 fractional digits and `output_amount = amount * adjusted_rate`
quantized to 2 fractional digits, both with ROUND_HALF_EVEN (not
half-up); the spec example (rate `1250.00000000`, margin `0.005`, amount
`100.00` giving `1243.7500` and `124375.00`) involves no tie and holds. -/
theorem c5_conversion_rounding (store : List RateRecord) (cache : Cache)
    (margin amount r : Decimal) (b t : String) (audit : ConversionAudit) (eff : Decimal)
    (ca : Cache)
    (hr : (get_latest_rate false store cache b t).1 = Except.ok r)
    (h : conversion_post store cache margin amount b t = (Except.ok (audit, eff), ca)) :
    eff = quantHE 4 (mulPrec 28 r (subPrec 28 ⟨10, -1⟩ margin)) ∧
    audit.output_amount = quantHE 2 (mulPrec 28 amount eff) ∧
    quantHE 4 (mulPrec 28 ⟨125000000000, -8⟩ (subPrec 28 ⟨10, -1⟩ ⟨5, -3⟩)) = ⟨12437500, -4⟩ ∧
    quantHE 2 (mulPrec 28 ⟨10000, -2⟩ ⟨12437500, -4⟩) = ⟨12437500, -2⟩ := by
  unfold conversion_post at h
  split at h
  · exact absurd h (by simp)
  · rename_i rate_value ca2 hg
    have hrv : rate_value = r := by
      have := congrArg Prod.fst hg
      rw [hr] at this
      exact (Except.ok.inj this).symm
    subst hrv
    split at h
    · exact absurd h (by simp)
    · split at h
      · exact absurd h (by simp)
      · simp only [Prod.mk.injEq, Except.ok.injEq] at h
        obtain ⟨⟨ha, he⟩, hca⟩ := h
        subst ha he
        exact ⟨rfl, rfl, by decide, by decide⟩

/-- C5 (witness): the amended theorem at the spec's own example, resolved
from the cache: rate `1250.00000000`, margin `0.005`, amount `100.00`. -/
theorem c5_conversion_rounding_witness :
    (⟨12437500, -4⟩ : Decimal) =
      quantHE 4 (mulPrec 28 ⟨125000000000, -8⟩ (subPrec 28 ⟨10, -1⟩ ⟨5, -3⟩)) ∧
    (⟨⟨"EUR", "NGN", ⟨1, 0⟩, 0⟩, ⟨10000, -2⟩, ⟨12437500, -2⟩, ⟨5, -3⟩⟩ :
        ConversionAudit).output_amount =
      quantHE 2 (mulPrec 28 ⟨10000, -2⟩ ⟨12437500, -4⟩) ∧
    quantHE 4 (mulPrec 28 ⟨125000000000, -8⟩ (subPrec 28 ⟨10, -1⟩ ⟨5, -3⟩)) = ⟨12437500, -4⟩ ∧
    quantHE 2 (mulPrec 28 ⟨10000, -2⟩ ⟨12437500, -4⟩) = ⟨12437500, -2⟩ :=
  c5_conversion_rounding
    [⟨"EUR", "USD", ⟨1, 0⟩, 0⟩, ⟨"EUR", "NGN", ⟨1, 0⟩, 0⟩]
    [("fx_rate:USD:NGN", ⟨125000000000, -8⟩)] ⟨5, -3⟩ ⟨10000, -2⟩ ⟨125000000000, -8⟩
    "USD" "NGN"
    ⟨⟨"EUR", "NGN", ⟨1, 0⟩, 0⟩, ⟨10000, -2⟩, ⟨12437500, -2⟩, ⟨5, -3⟩⟩ ⟨12437500, -4⟩
    [("fx_rate:USD:NGN", ⟨125000000000, -8⟩)] (by decide) (by decide)

/-- C6: when the storage layer raises an unexpected (non-`DoesNotExist`)
error during resolution, the `except Exception` handler calls
`logger.error` - but `exchange_app/models.py` never defines `logger`, so
the handler itself raises `NameError` and the caller sees that raw fault,
not the `DoesNotExist` that line 69 intends to raise. -/
theorem c6_storage_error_leaks_nameerror (store : List RateRecord) (cache : Cache)
    (b t : String)
    (hc : cacheGet cache (cache_key b t) = none) :
    (get_latest_rate true store cache b t).1 =
      Except.error (PyError.NameErr "NameError: name logger is not defined") ∧
    ∀ msg, (get_latest_rate true store cache b t).1 ≠
      Except.error (PyError.DoesNotExist msg) := by
  constructor
  · simp only [get_latest_rate, hc, get_latest_rate_try, handleLookupExc]
    simp
  · intro msg
    simp only [get_latest_rate, hc, get_latest_rate_try, handleLookupExc]
    simp

/-- C6 (witness): a storage fault on a concrete lookup surfaces as
`NameError`, not as `DoesNotExist`. -/
theorem c6_storage_error_leaks_nameerror_witness :
    (get_latest_rate true [] [] "USD" "NGN").1 =
      Except.error (PyError.NameErr "NameError: name logger is not defined") :=
  (c6_storage_error_leaks_nameerror [] [] "USD" "NGN" (by decide)).1

/-- Every error-returning path of the `try` block leaves the cache
untouched (`cache.set` is only reached on the two success paths). -/
theorem try_error_cache (sf : Bool) (store : List RateRecord) (cache : Cache)
    (b t : String) (er : RawErr) (ca : Cache)
    (h : get_latest_rate_try sf store cache b t = (Except.error er, ca)) :
    ca = cache := by
  unfold get_latest_rate_try at h
  repeat' split at h
  all_goals (try (dsimp only [] at h))
  all_goals (try (split at h))
  all_goals
    first
      | (injection h with h1 h2; exact h2.symm)
      | (injection h with h1 h2; exact Except.noConfusion h1)

/-- The exception handler keeps the cache of its input, so a failing
lookup also leaves the cache untouched after handling. -/
theorem handle_error_cache (sf : Bool) (store : List RateRecord) (cache : Cache)
    (b t : String) (e : PyError) (ca : Cache)
    (h : handleLookupExc (get_latest_rate_try sf store cache b t) = (Except.error e, ca)) :
    ca = cache := by
  cases htry : get_latest_rate_try sf store cache b t with
  | mk res ca3 =>
    rw [htry] at h
    cases res with
    | ok v => simp [handleLookupExc] at h
    | error er =>
      cases er with
      | doesNotExist msg =>
        simp only [handleLookupExc, Prod.mk.injEq] at h
        rw [← h.2]
        exact try_error_cache sf store cache b t _ _ htry
      | otherExc =>
        simp only [handleLookupExc, Prod.mk.injEq] at h
        rw [← h.2]
        exact try_error_cache sf store cache b t _ _ htry

/-- C7: a failed resolution never writes a cache entry (no negative
caching): the returned cache equals the input cache; consequently, once
the needed records are ingested (with a nonzero `EUR→base` rate), the next
call for the same pair succeeds against the current store contents. -/
theorem c7_failure_never_cached (sf : Bool) (store : List RateRecord) (cache : Cache)
    (b t : String) (e : PyError) (c2 : Cache)
    (h : get_latest_rate sf store cache b t = (Except.error e, c2)) :
    c2 = cache ∧
    ∀ store2 rb rt, findLatest store2 "EUR" b = some rb →
      findLatest store2 "EUR" t = some rt → rb.rate_value.m ≠ 0 →
      ((get_latest_rate false store2 c2 b t).1.isOk = true) := by
  have main : c2 = cache ∧ (cacheGet cache (cache_key b t) = none ∨
      ∃ v0, cacheGet cache (cache_key b t) = some v0 ∧ v0.m = 0) := by
    unfold get_latest_rate at h
    split at h
    · rename_i rate_data hcg
      split at h
      · rename_i hm
        exact ⟨handle_error_cache sf store cache b t e c2 h, Or.inr ⟨rate_data, hcg, hm⟩⟩
      · exact absurd h (by simp)
    · rename_i hcg
      exact ⟨handle_error_cache sf store cache b t e c2 h, Or.inl hcg⟩
  obtain ⟨hc2, hcc⟩ := main
  subst hc2
  refine ⟨rfl, ?_⟩
  intro store2 rb rt h1 h2 hnz
  by_cases hbe : b = "EUR"
  · subst hbe
    rcases hcc with hnone | ⟨v0, hsome, hv0⟩
    · simp only [get_latest_rate, hnone, get_latest_rate_try, handleLookupExc]
      simp [h2, Except.isOk, Except.toBool]
    · simp only [get_latest_rate, hsome, get_latest_rate_try, handleLookupExc]
      simp [hv0, h2, Except.isOk, Except.toBool]
  · have hb2 : (b == "EUR") = false := by simp [hbe]
    rcases hcc with hnone | ⟨v0, hsome, hv0⟩
    · simp only [get_latest_rate, hnone, get_latest_rate_try, handleLookupExc]
      simp [hb2, h1, h2, hnz, Except.isOk, Except.toBool]
    · simp only [get_latest_rate, hsome, get_latest_rate_try, handleLookupExc]
      simp [hv0, hb2, h1, h2, hnz, Except.isOk, Except.toBool]

/-- C7 (witness): a failing lookup on an empty store leaves the cache
empty, and after ingesting both legs the same lookup succeeds. -/
theorem c7_failure_never_cached_witness :
    ([] : Cache) = [] ∧
    ((get_latest_rate false
        [⟨"EUR", "USD", ⟨2, 0⟩, 0⟩, ⟨"EUR", "JPY", ⟨3, 0⟩, 0⟩] [] "USD" "JPY").1.isOk = true) := by
  have h := c7_failure_never_cached false [] [] "USD" "JPY"
    (PyError.DoesNotExist "No rate found for EUR/USD") [] (by decide)
  exact ⟨h.1, h.2 [⟨"EUR", "USD", ⟨2, 0⟩, 0⟩, ⟨"EUR", "JPY", ⟨3, 0⟩, 0⟩]
    ⟨"EUR", "USD", ⟨2, 0⟩, 0⟩ ⟨"EUR", "JPY", ⟨3, 0⟩, 0⟩ (by decide) (by decide) (by decide)⟩

/-- C8: the ingestion batch keeps exactly the fetched entries with a
positive rate (entries with rate ≤ 0 are skipped without failing the
batch), all inserted in one bulk create; in particular a batch of one
zero-valued rate and nine valid rates persists exactly nine records. -/
theorem c8_batch_filters_nonpositive :
    (∀ (rates : List (String × Decimal)) (timestamp : ℕ),
      fetch_and_save_latest_rates rates timestamp =
        (rates.filter (fun p => 0 < p.2.m)).map
          (fun p => { base_currency := "EUR", counter_currency := p.1,
                      rate_value := p.2, fetched_at := timestamp })) ∧
    (fetch_and_save_latest_rates
        [("AAA", ⟨0, 0⟩), ("USD", ⟨1, 0⟩), ("NGN", ⟨2, 0⟩), ("JPY", ⟨3, 0⟩), ("GBP", ⟨4, 0⟩),
         ("CHF", ⟨5, 0⟩), ("CAD", ⟨6, 0⟩), ("AUD", ⟨7, 0⟩), ("CNY", ⟨8, 0⟩), ("INR", ⟨9, 0⟩)]
        7).length = 9 := by
  constructor
  · intro rates timestamp
    unfold fetch_and_save_latest_rates
    have aux : ∀ (l : List (String × Decimal)) (acc : List RateRecord),
        l.foldl (fun acc p => if p.2.m ≤ 0 then acc
          else acc ++ [{ base_currency := "EUR", counter_currency := p.1,
                         rate_value := p.2, fetched_at := timestamp }]) acc =
        acc ++ (l.filter (fun p => 0 < p.2.m)).map
          (fun p => { base_currency := "EUR", counter_currency := p.1,
                      rate_value := p.2, fetched_at := timestamp }) := by
      intro l
      induction l with
      | nil => intro acc; simp
      | cons p ps ih =>
        intro acc
        by_cases hp : p.2.m ≤ 0
        · have hnp : ¬(0 < p.2.m) := not_lt.2 hp
          simp only [List.foldl_cons, List.filter_cons, if_pos hp]
          rw [ih]
          simp [hnp]
        · have hps : 0 < p.2.m := not_le.1 hp
          simp only [List.foldl_cons, List.filter_cons, if_neg hp]
          rw [ih]
          simp [hps, List.append_assoc]
    rw [aux rates []]
    simp
  · decide

/-- C9: the audit step of a conversion independently re-queries the store
for the latest `EUR→base` and `EUR→target` records: a success response
implies both exist at that moment, and a conversion whose rate came from
the cache still fails with `DoesNotExist` naming `EUR/{base}` when the
`EUR→base` record is absent - so a conversion with base `"EUR"` succeeds
only if an `EUR→EUR` record exists. -/
theorem c9_audit_requeries_both_legs (store : List RateRecord) (cache : Cache)
    (margin amount : Decimal) (b t : String) :
    (∀ audit eff ca,
      conversion_post store cache margin amount b t = (Except.ok (audit, eff), ca) →
      (findLatest store "EUR" b).isSome = true ∧ (findLatest store "EUR" t).isSome = true) ∧
    (∀ v, cacheGet cache (cache_key b t) = some v → v.m ≠ 0 →
      findLatest store "EUR" b = none →
      (conversion_post store cache margin amount b t).1 =
        Except.error (PyError.DoesNotExist ("No rate found for EUR/" ++ b))) := by
  constructor
  · intro audit eff ca h
    unfold conversion_post at h
    split at h
    · exact absurd h (by simp)
    · split at h
      · exact absurd h (by simp)
      · rename_i rdr hdr
        split at h
        · exact absurd h (by simp)
        · rename_i ret het
          rw [hdr, het]
          simp
  · intro v hv hvm hb1
    have hg : get_latest_rate false store cache b t = (Except.ok v, cache) := by
      simp only [get_latest_rate, hv]
      simp [hvm]
    unfold conversion_post
    rw [hg]
    simp [hb1]

/-- C9 (witness): a conversion resolved from the cache fails naming
`EUR/USD` when no `EUR→USD` record exists at audit time. -/
theorem c9_audit_requeries_both_legs_witness :
    (conversion_post [] [("fx_rate:USD:NGN", ⟨2, 0⟩)] ⟨5, -3⟩ ⟨100, -2⟩ "USD" "NGN").1 =
      Except.error (PyError.DoesNotExist "No rate found for EUR/USD") :=
  (c9_audit_requeries_both_legs [] [("fx_rate:USD:NGN", ⟨2, 0⟩)] ⟨5, -3⟩ ⟨100, -2⟩
      "USD" "NGN").2
    ⟨2, 0⟩ (by decide) (by decide) (by decide)
